import Mathlib

/-!
# DropNet desktop runners: the pending-shared-files buffer

A shallow embedding of the two native runners of DropNet,

* `linux/runner/my_application.cc` (GTK), namespace `Dropnet.Linux`;
* `windows/runner/flutter_window.cpp` (Win32), namespace `Dropnet.Windows`;

restricted to the code that touches the pending-shared-files buffer: the
capture loop run on the launch arguments and the `dropnet/share_intent`
method-call handler.

Modelling conventions.

* C strings and `std::string` values are `String`; a C string has no interior
  NUL, so `strcmp`/`g_strcmp0` are plain lexicographic comparisons.
* `GPtrArray*` of strings and `std::vector<std::string>` are `List String`;
  `g_ptr_array_add` and `push_back` append at the end.
* The file system is not part of the program.  Each library call that looks at
  it (the single tests behind `g_file_test`, `g_canonicalize_filename`,
  `std::filesystem::absolute`, `exists`, `is_regular_file`) is a field of a
  file-system record, and every general theorem quantifies over all such
  records.
* Where a statement depends on what the normaliser computes, the record is
  `Linux.glibFileSystem` or `Windows.win32FileSystem`: the file tests stay
  arbitrary and the normaliser is the lexical computation of the library
  (`Linux.GLib.g_canonicalize_filename`, `Windows.Win32.absolute`).
* A `std::error_code&` out-parameter is returned next to the value
  (`WithErrorCode`).
-/

namespace Dropnet

/-! ## Order-preserving, duplicate-free accumulation (proof-side reference) -/

/-- One step of the reference accumulation: an argument that `accept` rejects
leaves the buffer alone; an accepted one is appended unless already there. -/
def accumulateStep {α : Type} (accept : α → Option String)
    (buf : List String) (arg : α) : List String :=
  match accept arg with
  | none => buf
  | some value => if value ∈ buf then buf else buf ++ [value]

/-- Reference accumulation over a whole argument list, starting from `buf`. -/
def accumulate {α : Type} (accept : α → Option String)
    (buf : List String) (args : List α) : List String :=
  args.foldl (accumulateStep accept) buf

/-- Position, in `args`, of the first argument that `accept` maps to `p`
(`args.length` when there is none). -/
def firstSeen {α : Type} (accept : α → Option String) :
    List α → String → Nat
  | [], _ => 0
  | a :: rest, p => if accept a = some p then 0 else firstSeen accept rest p + 1

/-! ## Lexical path resolution shared by the two library models -/

/-- Split a path at every separator character: `a/b` gives `[a, b]`, a leading,
doubled or trailing separator gives an empty component. -/
def splitComponents (isSep : Char → Bool) : List Char → List (List Char)
  | [] => [[]]
  | c :: cs =>
    if isSep c then [] :: splitComponents isSep cs
    else
      match splitComponents isSep cs with
      | [] => [[c]]
      | s :: ss => (c :: s) :: ss

/-- One step of lexical resolution on a stack of components (innermost
first): an empty component and `.` are dropped, `..` removes the component
before it (nothing at the root), any other component is kept. -/
def resolveStep (stack : List (List Char)) (component : List Char) : List (List Char) :=
  if component = [] ∨ component = ['.'] then stack
  else if component = ['.', '.'] then stack.drop 1
  else component :: stack

/-- Lexical resolution of a component list, outermost component first. -/
def resolveComponents (components : List (List Char)) : List (List Char) :=
  (components.foldl resolveStep []).reverse

/-! ## Linux runner (`linux/runner/my_application.cc`) -/

namespace Linux

/-- The constant `kConsumePendingMethod`. -/
def kConsumePendingMethod : String := "consumePendingSharedFiles"

/-- GLib `GFileTest` flag `G_FILE_TEST_IS_REGULAR` (`1 << 0`). -/
def G_FILE_TEST_IS_REGULAR : Nat := 1
/-- GLib `GFileTest` flag `G_FILE_TEST_IS_SYMLINK` (`1 << 1`). -/
def G_FILE_TEST_IS_SYMLINK : Nat := 2
/-- GLib `GFileTest` flag `G_FILE_TEST_IS_DIR` (`1 << 2`). -/
def G_FILE_TEST_IS_DIR : Nat := 4
/-- GLib `GFileTest` flag `G_FILE_TEST_IS_EXECUTABLE` (`1 << 3`). -/
def G_FILE_TEST_IS_EXECUTABLE : Nat := 8
/-- GLib `GFileTest` flag `G_FILE_TEST_EXISTS` (`1 << 4`). -/
def G_FILE_TEST_EXISTS : Nat := 16

/-- The part of the file-system state the Linux runner can observe.  The five
`test_*` fields are the answers of the five single GLib file tests for a file
name; `g_canonicalize_filename` is the library call of that name with
`relative_to = nullptr` (`none` is a null result); `file_id` is the file a
name designates once symbolic links are followed (what `stat` reports as
device and inode), and is used only to state which names denote the same
file. -/
structure FileSystem where
  test_exists : String → Bool
  test_is_regular : String → Bool
  test_is_symlink : String → Bool
  test_is_dir : String → Bool
  test_is_executable : String → Bool
  g_canonicalize_filename : String → Option String
  file_id : String → Option Nat

/-- GLib `g_file_test (filename, test)` with its documented meaning for a
bitfield: the result is TRUE as soon as any one of the tests selected in
`test` is TRUE. -/
def g_file_test (fs : FileSystem) (filename : String) (test : Nat) : Bool :=
  (decide (test &&& G_FILE_TEST_EXISTS ≠ 0) && fs.test_exists filename) ||
  (decide (test &&& G_FILE_TEST_IS_EXECUTABLE ≠ 0) && fs.test_is_executable filename) ||
  (decide (test &&& G_FILE_TEST_IS_SYMLINK ≠ 0) && fs.test_is_symlink filename) ||
  (decide (test &&& G_FILE_TEST_IS_REGULAR ≠ 0) && fs.test_is_regular filename) ||
  (decide (test &&& G_FILE_TEST_IS_DIR ≠ 0) && fs.test_is_dir filename)

/-- C `strcmp` on character lists: negative, zero or positive. -/
def strcmpChars : List Char → List Char → Int
  | [], [] => 0
  | [], _ :: _ => -1
  | _ :: _, [] => 1
  | c :: cs, d :: ds =>
    if c = d then strcmpChars cs ds
    else if c.toNat < d.toNat then -1 else 1

/-- C `strcmp`. -/
def strcmp (a b : String) : Int := strcmpChars a.data b.data

/-- GLib `g_strcmp0` on two non-null strings. -/
def g_strcmp0 (a b : String) : Int := strcmpChars a.data b.data

/-- The fields of `struct _MyApplication` that the buffer code reads or
writes. -/
structure MyApplication where
  dart_entrypoint_arguments : List String
  pending_shared_file_paths : List String
deriving DecidableEq, Repr

/-- The three kinds of `FlMethodResponse`; a success carries the list of
strings built with `fl_value_new_list`/`fl_value_append_take`. -/
inductive FlMethodResponse where
  | success (result : List String)
  | error (code : String)
  | not_implemented
deriving DecidableEq, Repr

/-- The function `my_application_init`: the buffer starts empty. -/
def my_application_init : MyApplication :=
  { dart_entrypoint_arguments := [], pending_shared_file_paths := [] }

/-- The function `consume_pending_shared_files`: copy every buffered path, in
index order, into a fresh list value, set the array size to 0, answer with a
success response holding the list. -/
def consume_pending_shared_files (self : MyApplication) :
    MyApplication × FlMethodResponse :=
  let list := self.pending_shared_file_paths.foldl
    (fun (list : List String) (path : String) => list ++ [path]) []
  ({ self with pending_shared_file_paths := [] }, FlMethodResponse.success list)

/-- The function `share_intent_method_call_handler`: returns the new
application state and the response handed to `fl_method_call_respond`
(a delivery failure there only logs a warning). -/
def share_intent_method_call_handler (self : MyApplication) (method : String) :
    MyApplication × FlMethodResponse :=
  if strcmp method kConsumePendingMethod = 0 then
    consume_pending_shared_files self
  else
    (self, FlMethodResponse.not_implemented)

/-- The inner loop of `my_application_local_command_line`: scan the buffer,
set `duplicate` and break at the first entry equal to `canonical`. -/
def find_duplicate (canonical : String) : List String → Bool
  | [] => false
  | existing :: rest =>
    if g_strcmp0 existing canonical = 0 then true
    else find_duplicate canonical rest

/-- One iteration of the argument loop of
`my_application_local_command_line`. -/
def capture_argument (fs : FileSystem) (pending : List String)
    (argument : String) : List String :=
  if !g_file_test fs argument (G_FILE_TEST_EXISTS ||| G_FILE_TEST_IS_REGULAR) then
    pending
  else
    match fs.g_canonicalize_filename argument with
    | none => pending
    | some canonical =>
      if canonical = "" then pending
      else
        let duplicate := find_duplicate canonical pending
        if !duplicate then pending ++ [canonical] else pending

/-- The function `my_application_local_command_line`.  `arguments` is the whole
argument vector, argument 0 included; `register_ok` is the result of
`g_application_register`.  Returns the new state, `*exit_status` and the
function's return value. -/
def my_application_local_command_line (fs : FileSystem) (register_ok : Bool)
    (self : MyApplication) (arguments : List String) :
    MyApplication × Int × Bool :=
  let self1 := { self with dart_entrypoint_arguments := arguments.drop 1 }
  let self2 := { self1 with pending_shared_file_paths := [] }
  let pending := (arguments.drop 1).foldl (capture_argument fs)
    self2.pending_shared_file_paths
  let self3 := { self2 with pending_shared_file_paths := pending }
  if !register_ok then (self3, 1, true)
  else (self3, 0, true)

/-- The canonical form under which the capture loop accepts an argument, or
`none` when the loop skips it. -/
def accepted (fs : FileSystem) (argument : String) : Option String :=
  if g_file_test fs argument (G_FILE_TEST_EXISTS ||| G_FILE_TEST_IS_REGULAR) then
    match fs.g_canonicalize_filename argument with
    | none => none
    | some canonical => if canonical = "" then none else some canonical
  else none

/-- The ways a file-system probe of one argument can fail on Linux: the
existence/type test is false, or canonicalisation gives null or the empty
string. -/
def probeFails (fs : FileSystem) (argument : String) : Prop :=
  g_file_test fs argument (G_FILE_TEST_EXISTS ||| G_FILE_TEST_IS_REGULAR) = false ∨
  fs.g_canonicalize_filename argument = none ∨
  fs.g_canonicalize_filename argument = some ""

/-- A directory `/tmp` and nothing else: it exists, is a directory, is not a
regular file. -/
def dirFs : FileSystem where
  test_exists := fun p => p == "/tmp"
  test_is_regular := fun _ => false
  test_is_symlink := fun _ => false
  test_is_dir := fun p => p == "/tmp"
  test_is_executable := fun p => p == "/tmp"
  g_canonicalize_filename := fun p => if p == "/tmp" then some "/tmp" else none
  file_id := fun p => if p == "/tmp" then some 2 else none

/-- Working directory `/home/user` holding a regular file `a.txt` and a
symbolic link `link.txt` that points to it.  `g_canonicalize_filename` does
no file-system access and does not follow links: it only makes the name
absolute. -/
def symlinkFs : FileSystem where
  test_exists := fun p => p == "a.txt" || p == "link.txt"
  test_is_regular := fun p => p == "a.txt" || p == "link.txt"
  test_is_symlink := fun p => p == "link.txt"
  test_is_dir := fun _ => false
  test_is_executable := fun _ => false
  g_canonicalize_filename := fun p =>
    if p == "a.txt" then some "/home/user/a.txt"
    else if p == "link.txt" then some "/home/user/link.txt"
    else none
  file_id := fun p => if p == "a.txt" || p == "link.txt" then some 42 else none

/-- Working directory `/home/user` holding the regular files `a.txt` and
`b.txt`; `g_canonicalize_filename` maps both `a.txt` and `./a.txt` to
`/home/user/a.txt`.  The name `missing.txt` does not exist. -/
def dotFs : FileSystem where
  test_exists := fun p => p == "a.txt" || p == "./a.txt" || p == "b.txt"
  test_is_regular := fun p => p == "a.txt" || p == "./a.txt" || p == "b.txt"
  test_is_symlink := fun _ => false
  test_is_dir := fun _ => false
  test_is_executable := fun _ => false
  g_canonicalize_filename := fun p =>
    if p == "a.txt" || p == "./a.txt" then some "/home/user/a.txt"
    else if p == "b.txt" then some "/home/user/b.txt"
    else if p == "missing.txt" then some "/home/user/missing.txt"
    else none
  file_id := fun p =>
    if p == "a.txt" || p == "./a.txt" then some 7
    else if p == "b.txt" then some 8
    else none

/-! ### GLib `g_canonicalize_filename` -/

namespace GLib

/-- Test for the directory separator. -/
def isSlash (c : Char) : Bool := decide (c = '/')

/-- Components joined by single `/` separators. -/
def joinComponents : List (List Char) → List Char
  | [] => []
  | [c] => c
  | c :: d :: rest => c ++ '/' :: joinComponents (d :: rest)

/-- GLib `g_path_is_absolute` on Unix: the name starts with `/`. -/
def g_path_is_absolute (file_name : List Char) : Bool :=
  match file_name with
  | [] => false
  | c :: _ => isSlash c

/-- A name without its trailing separators. -/
def stripTrailingSeparators (l : List Char) : List Char :=
  (l.reverse.dropWhile isSlash).reverse

/-- GLib `g_build_filename (first, second, NULL)` for a `second` that has no
leading separator: empty elements are ignored, the trailing separators of
`first` are replaced by a single one unless `first` consists of separators
only. -/
def g_build_filename (first second : List Char) : List Char :=
  if second = [] then first
  else if first = [] then second
  else if stripTrailingSeparators first = [] then first ++ second
  else stripTrailingSeparators first ++ '/' :: second

/-- The root kept by `g_canonicalize_filename`: exactly two leading separators
stay two, any other number becomes one. -/
def rootOf (canon : List Char) : List Char :=
  if (canon.takeWhile isSlash).length = 2 then ['/', '/'] else ['/']

/-- GLib `g_canonicalize_filename (filename, NULL)` on character lists, for
the directory `current_dir` returned by `g_get_current_dir`.  No file-system
access is made and symbolic links are not followed.  A relative name is
joined to `current_dir`; repeated separators and `.` components are removed
and `..` removes the component before it.  When `current_dir` is not absolute
the library returns `/` joined to the unchanged name. -/
def canonicalizeChars (current_dir filename : List Char) : List Char :=
  let canon :=
    if g_path_is_absolute filename then filename
    else g_build_filename current_dir filename
  if !g_path_is_absolute canon then g_build_filename ['/'] filename
  else rootOf canon ++ joinComponents (resolveComponents (splitComponents isSlash canon))

/-- GLib `g_canonicalize_filename (filename, NULL)` with `g_get_current_dir`
returning `current_dir`. -/
def g_canonicalize_filename (current_dir filename : String) : String :=
  String.mk (canonicalizeChars current_dir.data filename.data)

end GLib

end Linux

/-! ## Windows runner (`windows/runner/flutter_window.cpp`) -/

namespace Windows

/-- A value returned together with the state of the `std::error_code&`
out-parameter after the call (`ec = true`: an error code is set). -/
structure WithErrorCode (α : Type) where
  value : α
  ec : Bool

/-- The part of the file-system state the Windows runner can observe.  A
`std::filesystem::path` is represented by its native string; `to_path` is the
constructor from a `std::string`, `u8string` the member of that name. -/
structure FileSystem where
  to_path : String → String
  absolute : String → WithErrorCode String
  fs_exists : String → WithErrorCode Bool
  is_regular_file : String → WithErrorCode Bool
  u8string : String → String

/-- The fields of `FlutterWindow` that the buffer code reads or writes. -/
structure FlutterWindow where
  startup_arguments_ : List String
  pending_shared_file_paths_ : List String
deriving DecidableEq, Repr

/-- The outcomes of a `flutter::MethodResult`: `Success` with the encodable
list of paths, `Error`, `NotImplemented`. -/
inductive MethodResult where
  | Success (paths : List String)
  | Error (code : String)
  | NotImplemented
deriving DecidableEq, Repr

/-- The constructor `FlutterWindow::FlutterWindow`: the buffer starts empty. -/
def FlutterWindow.new (startup_arguments : List String) : FlutterWindow :=
  { startup_arguments_ := startup_arguments, pending_shared_file_paths_ := [] }

/-- The algorithm `std::find (begin, end, value)` as the index of the first
element equal to `value`; the index equals the length when it returns
`end`. -/
def std_find (value : String) : List String → Nat
  | [] => 0
  | x :: rest => if x = value then 0 else std_find value rest + 1

/-- One iteration of the loop of `FlutterWindow::CaptureInitialSharedFiles`. -/
def capture_argument (fs : FileSystem) (pending : List String)
    (argument : String) : List String :=
  let path := fs.to_path argument
  let normalized := fs.absolute path
  if normalized.ec then pending
  else
    let e := fs.fs_exists normalized.value
    if !e.value || e.ec then pending
    else
      let r := fs.is_regular_file normalized.value
      if !r.value || r.ec then pending
      else
        let value := fs.u8string normalized.value
        if std_find value pending = pending.length then pending ++ [value]
        else pending

/-- The method `FlutterWindow::CaptureInitialSharedFiles`. -/
def CaptureInitialSharedFiles (fs : FileSystem) (self : FlutterWindow) :
    FlutterWindow :=
  let self1 := { self with pending_shared_file_paths_ := [] }
  { self1 with
    pending_shared_file_paths_ :=
      self1.startup_arguments_.foldl (capture_argument fs)
        self1.pending_shared_file_paths_ }

/-- The handler installed by `FlutterWindow::SetupShareChannel`: returns the
new window state and the outcome reported through `result`. -/
def SetupShareChannel_handler (self : FlutterWindow) (method_name : String) :
    FlutterWindow × MethodResult :=
  if method_name ≠ "consumePendingSharedFiles" then
    (self, MethodResult.NotImplemented)
  else
    let paths := self.pending_shared_file_paths_.foldl
      (fun (paths : List String) (file_path : String) => paths ++ [file_path]) []
    ({ self with pending_shared_file_paths_ := [] }, MethodResult.Success paths)

/-- The UTF-8 absolute form under which the capture loop accepts an argument,
or `none` when the loop skips it: `absolute` succeeds, `exists` and
`is_regular_file` both report true without an error code. -/
def accepted (fs : FileSystem) (argument : String) : Option String :=
  let normalized := fs.absolute (fs.to_path argument)
  if normalized.ec = false ∧
      (fs.fs_exists normalized.value).value = true ∧
      (fs.fs_exists normalized.value).ec = false ∧
      (fs.is_regular_file normalized.value).value = true ∧
      (fs.is_regular_file normalized.value).ec = false then
    some (fs.u8string normalized.value)
  else none

/-- The ways a file-system probe of one argument can fail on Windows:
`absolute`, `exists` or `is_regular_file` sets an error code, or one of the
two tests is false. -/
def probeFails (fs : FileSystem) (argument : String) : Prop :=
  let normalized := fs.absolute (fs.to_path argument)
  normalized.ec = true ∨
  (fs.fs_exists normalized.value).value = false ∨
  (fs.fs_exists normalized.value).ec = true ∨
  (fs.is_regular_file normalized.value).value = false ∨
  (fs.is_regular_file normalized.value).ec = true

/-- A working directory on drive `C:` (folder `work`) holding the regular files
`a.txt` and `b.txt`; `absolute` maps `a.txt` and its spelling with a leading
dot component to the same absolute path.  Any other name does not exist. -/
def dotFs : FileSystem where
  to_path := fun s => s
  absolute := fun p =>
    if p == "a.txt" || p == ".\\a.txt" then ⟨"C:\\work\\a.txt", false⟩
    else if p == "b.txt" then ⟨"C:\\work\\b.txt", false⟩
    else ⟨p, false⟩
  fs_exists := fun p => ⟨p == "C:\\work\\a.txt" || p == "C:\\work\\b.txt", false⟩
  is_regular_file := fun p => ⟨p == "C:\\work\\a.txt" || p == "C:\\work\\b.txt", false⟩
  u8string := fun p => p

/-! ### The full-path computation behind `std::filesystem::absolute` -/

namespace Win32

/-- Both `\` and `/` separate components on Windows. -/
def isSeparator (c : Char) : Bool := decide (c = '\\') || decide (c = '/')

/-- The name starts with a separator. -/
def startsWithSeparator (p : List Char) : Bool :=
  match p with
  | [] => false
  | c :: _ => isSeparator c

/-- The last character of the name satisfies `f`. -/
def endsWith (f : Char → Bool) (p : List Char) : Bool :=
  match p.getLast? with
  | some c => f c
  | none => false

/-- A plain relative name: not empty, no leading separator, no colon (drive
or stream), not ending in a period or a space. -/
def isPlainRelative (p : List Char) : Bool :=
  !p.isEmpty && !startsWithSeparator p && !decide (':' ∈ p) &&
    !endsWith (fun c => decide (c = '.') || decide (c = ' ')) p

/-- The full-path computation behind `std::filesystem::absolute` in the MSVC
runtime (Win32 `GetFullPathNameW`), which makes no file-system access and does
not follow links.  For a plain relative name the name is appended to the
current directory, the text is cut at `\` and `/`, `.` components are dropped
and `..` removes the component before it.  Only this resolution is modelled:
how the resolved components are written out (drive root, separators, trimming,
error code) is the parameter `render`, which also sees whether the name ends
in a separator, and every other kind of name is left to `other`. -/
def absolute (current_directory : String)
    (render : List (List Char) → Bool → WithErrorCode String)
    (other : String → WithErrorCode String) (p : String) : WithErrorCode String :=
  if isPlainRelative p.data then
    render
      (resolveComponents
        (splitComponents isSeparator (current_directory.data ++ '\\' :: p.data)))
      (endsWith isSeparator p.data)
  else other p

/-- A sample `render`: the resolved components joined by `\`, no error. -/
def renderBackslash (components : List (List Char)) (_trailing : Bool) :
    WithErrorCode String :=
  ⟨String.mk (List.intercalate ['\\'] components), false⟩

end Win32

end Windows


/-! ## Lemmas on the reference accumulation -/

theorem accumulate_nil {α : Type} (accept : α → Option String) (buf : List String) :
    accumulate accept buf [] = buf := rfl

theorem accumulate_cons {α : Type} (accept : α → Option String) (buf : List String)
    (a : α) (args : List α) :
    accumulate accept buf (a :: args) = accumulate accept (accumulateStep accept buf a) args :=
  rfl

theorem accumulate_append {α : Type} (accept : α → Option String) (buf : List String)
    (xs ys : List α) :
    accumulate accept buf (xs ++ ys) = accumulate accept (accumulate accept buf xs) ys := by
  simp [accumulate, List.foldl_append]

theorem accumulate_snoc {α : Type} (accept : α → Option String) (buf : List String)
    (xs : List α) (a : α) :
    accumulate accept buf (xs ++ [a]) = accumulateStep accept (accumulate accept buf xs) a := by
  simp [accumulate, List.foldl_append]

theorem accumulateStep_of_none {α : Type} {accept : α → Option String} {a : α}
    (h : accept a = none) (buf : List String) : accumulateStep accept buf a = buf := by
  simp [accumulateStep, h]

theorem accumulate_skip {α : Type} {accept : α → Option String} {b : α}
    (h : accept b = none) (buf : List String) (xs ys : List α) :
    accumulate accept buf (xs ++ [b] ++ ys) = accumulate accept buf (xs ++ ys) := by
  rw [accumulate_append, accumulate_snoc, accumulateStep_of_none h, ← accumulate_append]

theorem mem_accumulateStep {α : Type} (accept : α → Option String) (buf : List String)
    (a : α) (s : String) :
    s ∈ accumulateStep accept buf a ↔ s ∈ buf ∨ accept a = some s := by
  unfold accumulateStep
  cases h : accept a with
  | none => simp
  | some v =>
    by_cases hv : v ∈ buf
    · simp only [hv, if_true, Option.some.injEq]
      constructor
      · exact Or.inl
      · rintro (h1 | h1)
        · exact h1
        · exact h1 ▸ hv
    · simp only [hv, if_false, List.mem_append, List.mem_singleton, Option.some.injEq]
      constructor
      · rintro (h1 | h1)
        · exact Or.inl h1
        · exact Or.inr h1.symm
      · rintro (h1 | h1)
        · exact Or.inl h1
        · exact Or.inr h1.symm

theorem mem_accumulate {α : Type} (accept : α → Option String) (args : List α) :
    ∀ (buf : List String) (s : String),
      s ∈ accumulate accept buf args ↔ s ∈ buf ∨ ∃ a ∈ args, accept a = some s := by
  induction args with
  | nil => intro buf s; simp [accumulate]
  | cons a rest ih =>
    intro buf s
    rw [accumulate_cons, ih, mem_accumulateStep]
    constructor
    · rintro ((h | h) | ⟨b, hb, h⟩)
      · exact Or.inl h
      · exact Or.inr ⟨a, List.mem_cons_self _ _, h⟩
      · exact Or.inr ⟨b, List.mem_cons_of_mem _ hb, h⟩
    · rintro (h | ⟨b, hb, h⟩)
      · exact Or.inl (Or.inl h)
      · rcases List.mem_cons.mp hb with rfl | hb
        · exact Or.inl (Or.inr h)
        · exact Or.inr ⟨b, hb, h⟩

theorem nodup_accumulateStep {α : Type} (accept : α → Option String) (buf : List String)
    (a : α) (h : buf.Nodup) : (accumulateStep accept buf a).Nodup := by
  unfold accumulateStep
  cases accept a with
  | none => exact h
  | some v =>
    by_cases hv : v ∈ buf
    · simpa [hv] using h
    · simp only [hv, if_false]
      refine List.nodup_append.mpr ⟨h, List.nodup_singleton v, ?_⟩
      intro x hx hx1
      rw [List.mem_singleton] at hx1
      exact hv (hx1 ▸ hx)

theorem nodup_accumulate {α : Type} (accept : α → Option String) (args : List α) :
    ∀ (buf : List String), buf.Nodup → (accumulate accept buf args).Nodup := by
  induction args with
  | nil => intro buf h; exact h
  | cons a rest ih =>
    intro buf h
    rw [accumulate_cons]
    exact ih _ (nodup_accumulateStep accept buf a h)

theorem firstSeen_le_length {α : Type} (accept : α → Option String) (args : List α)
    (p : String) : firstSeen accept args p ≤ args.length := by
  induction args with
  | nil => simp [firstSeen]
  | cons a rest ih =>
    unfold firstSeen
    split
    · exact Nat.zero_le _
    · simpa using ih

theorem firstSeen_lt_length {α : Type} (accept : α → Option String) (args : List α)
    (p : String) :
    firstSeen accept args p < args.length ↔ ∃ a ∈ args, accept a = some p := by
  induction args with
  | nil => simp [firstSeen]
  | cons a rest ih =>
    unfold firstSeen
    by_cases h : accept a = some p
    · simp only [h, if_true, List.length_cons, Nat.zero_lt_succ, true_iff]
      exact ⟨a, List.mem_cons_self _ _, h⟩
    · simp only [h, if_false, List.length_cons, Nat.add_lt_add_iff_right, ih]
      constructor
      · rintro ⟨b, hb, hbp⟩
        exact ⟨b, List.mem_cons_of_mem _ hb, hbp⟩
      · rintro ⟨b, hb, hbp⟩
        rcases List.mem_cons.mp hb with rfl | hb
        · exact absurd hbp h
        · exact ⟨b, hb, hbp⟩

theorem firstSeen_append_of_seen {α : Type} (accept : α → Option String) (args more : List α)
    (p : String) (h : ∃ b ∈ args, accept b = some p) :
    firstSeen accept (args ++ more) p = firstSeen accept args p := by
  induction args with
  | nil => simp at h
  | cons a rest ih =>
    rw [List.cons_append]
    unfold firstSeen
    by_cases ha : accept a = some p
    · simp [ha]
    · simp only [ha, if_false, Nat.add_right_cancel_iff]
      apply ih
      obtain ⟨b, hb, hbp⟩ := h
      rcases List.mem_cons.mp hb with rfl | hb
      · exact absurd hbp ha
      · exact ⟨b, hb, hbp⟩

theorem firstSeen_append_of_new {α : Type} (accept : α → Option String) (args more : List α)
    (p : String) (h : ¬ ∃ b ∈ args, accept b = some p) :
    firstSeen accept (args ++ more) p = args.length + firstSeen accept more p := by
  induction args with
  | nil => simp
  | cons a rest ih =>
    rw [List.cons_append]
    have ha : ¬ accept a = some p := fun hap => h ⟨a, List.mem_cons_self _ _, hap⟩
    have hrest : ¬ ∃ b ∈ rest, accept b = some p := by
      rintro ⟨b, hb, hbp⟩
      exact h ⟨b, List.mem_cons_of_mem _ hb, hbp⟩
    have hstep : firstSeen accept (a :: (rest ++ more)) p =
        firstSeen accept (rest ++ more) p + 1 := by
      simp [firstSeen, ha]
    rw [hstep, ih hrest, List.length_cons]
    omega

theorem firstSeen_snoc_of_seen {α : Type} (accept : α → Option String) (args : List α)
    (a : α) (p : String) (h : ∃ b ∈ args, accept b = some p) :
    firstSeen accept (args ++ [a]) p = firstSeen accept args p :=
  firstSeen_append_of_seen accept args [a] p h

theorem firstSeen_snoc_of_new {α : Type} (accept : α → Option String) (args : List α)
    (a : α) (p : String) (h : ¬ ∃ b ∈ args, accept b = some p) (ha : accept a = some p) :
    firstSeen accept (args ++ [a]) p = args.length := by
  rw [firstSeen_append_of_new accept args [a] p h]
  simp [firstSeen, ha]

theorem pairwise_firstSeen_accumulate {α : Type} (accept : α → Option String)
    (args : List α) :
    (accumulate accept [] args).Pairwise
      (fun p q => firstSeen accept args p < firstSeen accept args q) := by
  induction args using List.reverseRecOn with
  | nil => simp [accumulate]
  | append_singleton xs a ih =>
    have hmem : ∀ s, s ∈ accumulate accept [] xs ↔ ∃ b ∈ xs, accept b = some s := by
      intro s
      simpa using mem_accumulate accept xs [] s
    have hold : (accumulate accept [] xs).Pairwise
        (fun p q => firstSeen accept (xs ++ [a]) p < firstSeen accept (xs ++ [a]) q) := by
      refine List.Pairwise.imp_of_mem ?_ ih
      intro p q hp hq hpq
      rw [firstSeen_snoc_of_seen accept xs a p ((hmem p).mp hp),
        firstSeen_snoc_of_seen accept xs a q ((hmem q).mp hq)]
      exact hpq
    rw [accumulate_snoc]
    unfold accumulateStep
    cases ha : accept a with
    | none => exact hold
    | some v =>
      by_cases hv : v ∈ accumulate accept [] xs
      · simpa [hv] using hold
      · simp only [hv, if_false]
        refine List.pairwise_append.mpr ⟨hold, List.pairwise_singleton _ _, ?_⟩
        intro p hp q hq
        rw [List.mem_singleton] at hq
        subst hq
        rw [firstSeen_snoc_of_seen accept xs a p ((hmem p).mp hp),
          firstSeen_snoc_of_new accept xs a q (fun h => hv ((hmem q).mpr h)) ha]
        exact (firstSeen_lt_length accept xs p).mpr ((hmem p).mp hp)

theorem firstSeen_order_of_pairwise {α : Type} (accept : α → Option String)
    (args : List α) (buf : List String)
    (h : buf.Pairwise (fun p q => firstSeen accept args p < firstSeen accept args q))
    (i j : Nat) (p q : String) (hij : i < j) (hp : buf[i]? = some p) (hq : buf[j]? = some q) :
    firstSeen accept args p < firstSeen accept args q := by
  obtain ⟨hi, rfl⟩ := List.getElem?_eq_some.mp hp
  obtain ⟨hj, rfl⟩ := List.getElem?_eq_some.mp hq
  exact List.pairwise_iff_getElem.mp h i j hi hj hij


namespace Linux

theorem strcmpChars_eq_zero_iff : ∀ (a b : List Char), strcmpChars a b = 0 ↔ a = b := by
  intro a
  induction a with
  | nil =>
    intro b
    cases b with
    | nil => simp [strcmpChars]
    | cons d ds => simp [strcmpChars]
  | cons c cs ih =>
    intro b
    cases b with
    | nil => simp [strcmpChars]
    | cons d ds =>
      unfold strcmpChars
      by_cases hcd : c = d
      · simp [hcd, ih]
      · simp only [hcd, if_false, List.cons.injEq, false_and, iff_false]
        split <;> decide

theorem strcmp_eq_zero_iff (a b : String) : strcmp a b = 0 ↔ a = b := by
  unfold strcmp
  rw [strcmpChars_eq_zero_iff]
  exact String.ext_iff.symm

theorem g_strcmp0_eq_zero_iff (a b : String) : g_strcmp0 a b = 0 ↔ a = b := by
  unfold g_strcmp0
  rw [strcmpChars_eq_zero_iff]
  exact String.ext_iff.symm

theorem find_duplicate_iff (canonical : String) (pending : List String) :
    find_duplicate canonical pending = true ↔ canonical ∈ pending := by
  induction pending with
  | nil => simp [find_duplicate]
  | cons existing rest ih =>
    unfold find_duplicate
    by_cases h : g_strcmp0 existing canonical = 0
    · have he : existing = canonical := (g_strcmp0_eq_zero_iff _ _).mp h
      rw [if_pos h]
      simp [he]
    · have he : ¬ existing = canonical := fun he => h ((g_strcmp0_eq_zero_iff _ _).mpr he)
      have he2 : ¬ canonical = existing := fun he2 => he he2.symm
      simp [h, ih, he2]

theorem g_file_test_exists_or_regular (fs : FileSystem) (filename : String) :
    g_file_test fs filename (G_FILE_TEST_EXISTS ||| G_FILE_TEST_IS_REGULAR) =
      (fs.test_exists filename || fs.test_is_regular filename) := by
  have h1 : decide ((G_FILE_TEST_EXISTS ||| G_FILE_TEST_IS_REGULAR) &&&
      G_FILE_TEST_EXISTS ≠ 0) = true := by decide
  have h2 : decide ((G_FILE_TEST_EXISTS ||| G_FILE_TEST_IS_REGULAR) &&&
      G_FILE_TEST_IS_EXECUTABLE ≠ 0) = false := by decide
  have h3 : decide ((G_FILE_TEST_EXISTS ||| G_FILE_TEST_IS_REGULAR) &&&
      G_FILE_TEST_IS_SYMLINK ≠ 0) = false := by decide
  have h4 : decide ((G_FILE_TEST_EXISTS ||| G_FILE_TEST_IS_REGULAR) &&&
      G_FILE_TEST_IS_REGULAR ≠ 0) = true := by decide
  have h5 : decide ((G_FILE_TEST_EXISTS ||| G_FILE_TEST_IS_REGULAR) &&&
      G_FILE_TEST_IS_DIR ≠ 0) = false := by decide
  unfold g_file_test
  rw [h1, h2, h3, h4, h5]
  simp

theorem capture_argument_eq (fs : FileSystem) (pending : List String) (argument : String) :
    capture_argument fs pending argument = accumulateStep (accepted fs) pending argument := by
  unfold capture_argument accumulateStep accepted
  cases hg : g_file_test fs argument (G_FILE_TEST_EXISTS ||| G_FILE_TEST_IS_REGULAR) with
  | false => simp
  | true =>
    cases hc : fs.g_canonicalize_filename argument with
    | none => simp
    | some canonical =>
      by_cases he : canonical = ""
      · simp [he]
      · by_cases hm : canonical ∈ pending
        · have hd : find_duplicate canonical pending = true :=
            (find_duplicate_iff canonical pending).mpr hm
          simp [he, hm, hd]
        · have hd : find_duplicate canonical pending = false := by
            cases hfd : find_duplicate canonical pending with
            | false => rfl
            | true => exact absurd ((find_duplicate_iff canonical pending).mp hfd) hm
          simp [he, hm, hd]

theorem pending_after_command_line (fs : FileSystem) (register_ok : Bool)
    (self : MyApplication) (arguments : List String) :
    (my_application_local_command_line fs register_ok self arguments).1.pending_shared_file_paths
      = accumulate (accepted fs) [] (arguments.drop 1) := by
  have hfun : capture_argument fs = accumulateStep (accepted fs) := by
    funext pending argument
    exact capture_argument_eq fs pending argument
  unfold my_application_local_command_line accumulate
  cases register_ok <;> simp [hfun]

theorem mem_pending_iff (fs : FileSystem) (register_ok : Bool)
    (self : MyApplication) (arguments : List String) (s : String) :
    s ∈ (my_application_local_command_line fs register_ok self
        arguments).1.pending_shared_file_paths ↔
      ∃ a ∈ arguments.drop 1,
        (fs.test_exists a = true ∨ fs.test_is_regular a = true) ∧
        fs.g_canonicalize_filename a = some s ∧ s ≠ "" := by
  rw [pending_after_command_line, mem_accumulate]
  simp only [List.not_mem_nil, false_or]
  constructor
  · rintro ⟨a, ha, hacc⟩
    refine ⟨a, ha, ?_⟩
    unfold accepted at hacc
    rw [g_file_test_exists_or_regular] at hacc
    cases hc : fs.g_canonicalize_filename a with
    | none => simp [hc] at hacc
    | some c =>
      by_cases he : c = ""
      · simp [hc, he] at hacc
      · simp only [hc, he, if_false, Bool.or_eq_true, ite_eq_left_iff, Option.some.injEq] at hacc
        by_cases ht : fs.test_exists a = true ∨ fs.test_is_regular a = true
        · have hcs : c = s := by simpa [ht] using hacc
          exact ⟨ht, by rw [hcs], hcs ▸ he⟩
        · simp [ht] at hacc
  · rintro ⟨a, ha, ht, hc, hs⟩
    refine ⟨a, ha, ?_⟩
    unfold accepted
    rw [g_file_test_exists_or_regular]
    have ht2 : (fs.test_exists a || fs.test_is_regular a) = true := by
      simpa [Bool.or_eq_true] using ht
    simp [ht2, hc, hs]

theorem accepted_eq_none_of_probeFails (fs : FileSystem) (argument : String)
    (h : probeFails fs argument) : accepted fs argument = none := by
  unfold accepted
  rcases h with h | h | h
  · simp [h]
  · simp [h]
  · simp [h]

theorem foldl_snoc_eq (l : List String) :
    l.foldl (fun (list : List String) (path : String) => list ++ [path]) [] = l := by
  have h : ∀ (l acc : List String),
      l.foldl (fun (list : List String) (path : String) => list ++ [path]) acc = acc ++ l := by
    intro l
    induction l with
    | nil => intro acc; simp
    | cons x xs ih => intro acc; simp [ih]
  simpa using h l []

namespace GLib

end GLib

theorem g_canonicalize_filename_examples :
    GLib.g_canonicalize_filename "/home/user" "a.txt" = "/home/user/a.txt" ∧
    GLib.g_canonicalize_filename "/home/user" "./a.txt" = "/home/user/a.txt" ∧
    GLib.g_canonicalize_filename "/home/user" "sub/../a.txt" = "/home/user/a.txt" ∧
    GLib.g_canonicalize_filename "/home/user" "link.txt" = "/home/user/link.txt" ∧
    GLib.g_canonicalize_filename "/home/user" "missing.txt" = "/home/user/missing.txt" ∧
    GLib.g_canonicalize_filename "/home/user" "/tmp" = "/tmp" ∧
    GLib.g_canonicalize_filename "/home/user" "a//b/./c/" = "/home/user/a/b/c" ∧
    GLib.g_canonicalize_filename "/home/user" "../../../x" = "/x" ∧
    GLib.g_canonicalize_filename "/home/user" "//x" = "//x" ∧
    GLib.g_canonicalize_filename "/" "a.txt" = "/a.txt" ∧
    GLib.g_canonicalize_filename "." "a.txt" = "/a.txt" ∧
    GLib.g_canonicalize_filename "." "./a.txt" = "/./a.txt" := by
  decide

end Linux

/-! ## Lemmas on the Windows runner -/

namespace Windows

theorem std_find_le_length (value : String) (l : List String) :
    std_find value l ≤ l.length := by
  induction l with
  | nil => simp [std_find]
  | cons x rest ih =>
    unfold std_find
    split
    · exact Nat.zero_le _
    · simpa using ih

theorem std_find_eq_length_iff (value : String) (l : List String) :
    std_find value l = l.length ↔ value ∉ l := by
  induction l with
  | nil => simp [std_find]
  | cons x rest ih =>
    unfold std_find
    by_cases h : x = value
    · simp [h]
    · have h2 : ¬ value = x := fun e => h e.symm
      simp [h, h2, ih]

theorem capture_argument_eq_accumulateStep (fs : FileSystem) (pending : List String) (argument : String) :
    capture_argument fs pending argument = accumulateStep (accepted fs) pending argument := by
  unfold capture_argument accumulateStep accepted
  cases h1 : (fs.absolute (fs.to_path argument)).ec with
  | true => simp [h1]
  | false =>
    cases h2 : (fs.fs_exists (fs.absolute (fs.to_path argument)).value).value <;>
    cases h3 : (fs.fs_exists (fs.absolute (fs.to_path argument)).value).ec <;>
    cases h4 : (fs.is_regular_file (fs.absolute (fs.to_path argument)).value).value <;>
    cases h5 : (fs.is_regular_file (fs.absolute (fs.to_path argument)).value).ec <;>
    simp [h1, h2, h3, h4, h5]
    by_cases hm : fs.u8string (fs.absolute (fs.to_path argument)).value ∈ pending
    · have hf := (std_find_eq_length_iff
        (fs.u8string (fs.absolute (fs.to_path argument)).value) pending).not.mpr (not_not.mpr hm)
      simp [hm, hf]
    · have hf := (std_find_eq_length_iff
        (fs.u8string (fs.absolute (fs.to_path argument)).value) pending).mpr hm
      simp [hm, hf]

theorem pending_after_capture (fs : FileSystem) (self : FlutterWindow) :
    (CaptureInitialSharedFiles fs self).pending_shared_file_paths_
      = accumulate (accepted fs) [] self.startup_arguments_ := by
  have hfun : capture_argument fs = accumulateStep (accepted fs) := by
    funext pending argument
    exact capture_argument_eq_accumulateStep fs pending argument
  unfold CaptureInitialSharedFiles accumulate
  simp [hfun]

theorem accepted_eq_none_of_failed_probe (fs : FileSystem) (argument : String)
    (h : probeFails fs argument) : accepted fs argument = none := by
  unfold accepted
  unfold probeFails at h
  simp only at h
  rcases h with h | h | h | h | h <;> simp [h]

theorem foldl_emplace_back_eq (l : List String) :
    l.foldl (fun (paths : List String) (file_path : String) => paths ++ [file_path]) [] = l := by
  have h : ∀ (l acc : List String),
      l.foldl (fun (paths : List String) (file_path : String) => paths ++ [file_path]) acc
        = acc ++ l := by
    intro l
    induction l with
    | nil => intro acc; simp
    | cons x xs ih => intro acc; simp [ih]
  simpa using h l []

namespace Win32

end Win32

theorem absolute_examples :
    (Win32.absolute "C:\\work" Win32.renderBackslash dotFs.absolute "a.txt").value =
      "C:\\work\\a.txt" ∧
    (Win32.absolute "C:\\work" Win32.renderBackslash dotFs.absolute ".\\a.txt").value =
      "C:\\work\\a.txt" ∧
    (Win32.absolute "C:\\work" Win32.renderBackslash dotFs.absolute "sub\\..\\a.txt").value =
      "C:\\work\\a.txt" ∧
    (Win32.absolute "C:\\work" Win32.renderBackslash dotFs.absolute "sub/../b.txt").value =
      "C:\\work\\b.txt" := by
  decide

end Windows


/-! ## The claims -/

/-- C1. After the capture step the pending-paths buffer holds no two equal
strings, every entry is the canonical form of an accepted argument, and the
entries are in first-seen order: when `p` stands before `q` in the buffer, the
first argument accepted as `p` comes before the first argument accepted as
`q`.  Linux `my_application_local_command_line` (over the arguments after
argument 0) and Windows `FlutterWindow::CaptureInitialSharedFiles`. -/
theorem C1_capture_nodup_first_seen_order
    (lfs : Linux.FileSystem) (register_ok : Bool) (app : Linux.MyApplication)
    (arguments : List String) (wfs : Windows.FileSystem) (window : Windows.FlutterWindow) :
    ((Linux.my_application_local_command_line lfs register_ok app
        arguments).1.pending_shared_file_paths.Nodup ∧
      (∀ p ∈ (Linux.my_application_local_command_line lfs register_ok app
          arguments).1.pending_shared_file_paths,
        ∃ a ∈ arguments.drop 1, Linux.accepted lfs a = some p) ∧
      (∀ (i j : Nat) (p q : String), i < j →
        (Linux.my_application_local_command_line lfs register_ok app
          arguments).1.pending_shared_file_paths[i]? = some p →
        (Linux.my_application_local_command_line lfs register_ok app
          arguments).1.pending_shared_file_paths[j]? = some q →
        firstSeen (Linux.accepted lfs) (arguments.drop 1) p <
          firstSeen (Linux.accepted lfs) (arguments.drop 1) q)) ∧
    ((Windows.CaptureInitialSharedFiles wfs window).pending_shared_file_paths_.Nodup ∧
      (∀ p ∈ (Windows.CaptureInitialSharedFiles wfs window).pending_shared_file_paths_,
        ∃ a ∈ window.startup_arguments_, Windows.accepted wfs a = some p) ∧
      (∀ (i j : Nat) (p q : String), i < j →
        (Windows.CaptureInitialSharedFiles wfs window).pending_shared_file_paths_[i]? = some p →
        (Windows.CaptureInitialSharedFiles wfs window).pending_shared_file_paths_[j]? = some q →
        firstSeen (Windows.accepted wfs) window.startup_arguments_ p <
          firstSeen (Windows.accepted wfs) window.startup_arguments_ q)) := by
  rw [Linux.pending_after_command_line, Windows.pending_after_capture]
  refine ⟨⟨?_, ?_, ?_⟩, ⟨?_, ?_, ?_⟩⟩
  · exact nodup_accumulate _ _ [] List.nodup_nil
  · intro p hp
    simpa using (mem_accumulate (Linux.accepted lfs) (arguments.drop 1) [] p).mp hp
  · intro i j p q hij hp hq
    exact firstSeen_order_of_pairwise _ _ _ (pairwise_firstSeen_accumulate _ _) i j p q hij hp hq
  · exact nodup_accumulate _ _ [] List.nodup_nil
  · intro p hp
    simpa using (mem_accumulate (Windows.accepted wfs) window.startup_arguments_ [] p).mp hp
  · intro i j p q hij hp hq
    exact firstSeen_order_of_pairwise _ _ _ (pairwise_firstSeen_accumulate _ _) i j p q hij hp hq

/-- C2 (the code departs from the claim). With `/tmp` an existing directory
that is not a regular file, `my_application_local_command_line` on the
arguments `dropnet /tmp` leaves `/tmp` in the buffer: the call
`g_file_test (argument, G_FILE_TEST_EXISTS | G_FILE_TEST_IS_REGULAR)` is TRUE
because the existence test alone is TRUE. -/
theorem C2_directory_reaches_buffer :
    Linux.dirFs.test_exists "/tmp" = true ∧
    Linux.dirFs.test_is_dir "/tmp" = true ∧
    Linux.dirFs.test_is_regular "/tmp" = false ∧
    Linux.g_file_test Linux.dirFs "/tmp"
      (Linux.G_FILE_TEST_EXISTS ||| Linux.G_FILE_TEST_IS_REGULAR) = true ∧
    (Linux.my_application_local_command_line Linux.dirFs true Linux.my_application_init
      ["dropnet", "/tmp"]).1.pending_shared_file_paths = ["/tmp"] ∧
    ¬ ∃ a ∈ ["/tmp"], Linux.dirFs.test_exists a = true ∧
        Linux.dirFs.test_is_regular a = true ∧
        Linux.dirFs.g_canonicalize_filename a = some "/tmp" := by
  decide

/-- C3. Handling `consumePendingSharedFiles` answers with a success response
whose payload is exactly the buffer as it was before the call (same entries,
same order, same length) and leaves the buffer empty, on Linux
(`consume_pending_shared_files`, also through
`share_intent_method_call_handler`) and on Windows (the handler of
`SetupShareChannel`). -/
theorem C3_consume_returns_buffer_and_empties
    (app : Linux.MyApplication) (window : Windows.FlutterWindow) :
    Linux.consume_pending_shared_files app =
      ({ app with pending_shared_file_paths := [] },
        Linux.FlMethodResponse.success app.pending_shared_file_paths) ∧
    Linux.share_intent_method_call_handler app "consumePendingSharedFiles" =
      ({ app with pending_shared_file_paths := [] },
        Linux.FlMethodResponse.success app.pending_shared_file_paths) ∧
    Windows.SetupShareChannel_handler window "consumePendingSharedFiles" =
      ({ window with pending_shared_file_paths_ := [] },
        Windows.MethodResult.Success window.pending_shared_file_paths_) := by
  have hk : Linux.strcmp "consumePendingSharedFiles" Linux.kConsumePendingMethod = 0 :=
    (Linux.strcmp_eq_zero_iff _ _).mpr rfl
  refine ⟨?_, ?_, ?_⟩
  · simp [Linux.consume_pending_shared_files, Linux.foldl_snoc_eq]
  · simp [Linux.share_intent_method_call_handler, hk, Linux.consume_pending_shared_files,
      Linux.foldl_snoc_eq]
  · simp [Windows.SetupShareChannel_handler, Windows.foldl_emplace_back_eq]

/-- C4. Two consecutive `consumePendingSharedFiles` calls with no capture in
between: the first answers with the whole buffer, the second with the empty
list, the two payloads concatenated are the original buffer (nothing lost,
nothing repeated), and the buffer is empty afterwards (both platforms). -/
theorem C4_consume_twice
    (app : Linux.MyApplication) (window : Windows.FlutterWindow) :
    (∃ first second : List String,
      (Linux.share_intent_method_call_handler app "consumePendingSharedFiles").2 =
        Linux.FlMethodResponse.success first ∧
      (Linux.share_intent_method_call_handler
        (Linux.share_intent_method_call_handler app "consumePendingSharedFiles").1
        "consumePendingSharedFiles").2 = Linux.FlMethodResponse.success second ∧
      first = app.pending_shared_file_paths ∧ second = [] ∧
      first ++ second = app.pending_shared_file_paths ∧
      (Linux.share_intent_method_call_handler
        (Linux.share_intent_method_call_handler app "consumePendingSharedFiles").1
        "consumePendingSharedFiles").1.pending_shared_file_paths = []) ∧
    (∃ first second : List String,
      (Windows.SetupShareChannel_handler window "consumePendingSharedFiles").2 =
        Windows.MethodResult.Success first ∧
      (Windows.SetupShareChannel_handler
        (Windows.SetupShareChannel_handler window "consumePendingSharedFiles").1
        "consumePendingSharedFiles").2 = Windows.MethodResult.Success second ∧
      first = window.pending_shared_file_paths_ ∧ second = [] ∧
      first ++ second = window.pending_shared_file_paths_ ∧
      (Windows.SetupShareChannel_handler
        (Windows.SetupShareChannel_handler window "consumePendingSharedFiles").1
        "consumePendingSharedFiles").1.pending_shared_file_paths_ = []) := by
  have hk : Linux.strcmp "consumePendingSharedFiles" Linux.kConsumePendingMethod = 0 :=
    (Linux.strcmp_eq_zero_iff _ _).mpr rfl
  constructor
  · refine ⟨app.pending_shared_file_paths, [], ?_, ?_, rfl, rfl, by simp, ?_⟩
    · simp [Linux.share_intent_method_call_handler, hk, Linux.consume_pending_shared_files,
        Linux.foldl_snoc_eq]
    · simp [Linux.share_intent_method_call_handler, hk, Linux.consume_pending_shared_files]
    · simp [Linux.share_intent_method_call_handler, hk, Linux.consume_pending_shared_files]
  · refine ⟨window.pending_shared_file_paths_, [], ?_, ?_, rfl, rfl, by simp, ?_⟩
    · simp [Windows.SetupShareChannel_handler, Windows.foldl_emplace_back_eq]
    · simp [Windows.SetupShareChannel_handler]
    · simp [Windows.SetupShareChannel_handler]

/-- C5. Last launch wins: the buffer after the capture step is the same
whatever the buffer held before (it depends only on the new arguments and the
file system); every entry present afterwards is produced by the new argument
list itself; and with `x` pending, capturing the single accepted argument `y`
leaves exactly the canonical form of `y`.  Linux
`my_application_local_command_line`, Windows
`FlutterWindow::CaptureInitialSharedFiles`. -/
theorem C5_last_launch_wins
    (lfs : Linux.FileSystem) (register_ok register_ok2 : Bool)
    (app app2 : Linux.MyApplication) (arguments : List String)
    (wfs : Windows.FileSystem) (startup_arguments prior prior2 : List String)
    (argv0 x y c : String) :
    ((Linux.my_application_local_command_line lfs register_ok app
        arguments).1.pending_shared_file_paths =
      (Linux.my_application_local_command_line lfs register_ok2 app2
        arguments).1.pending_shared_file_paths ∧
      (∀ p ∈ (Linux.my_application_local_command_line lfs register_ok app
          arguments).1.pending_shared_file_paths,
        ∃ a ∈ arguments.drop 1, Linux.accepted lfs a = some p) ∧
      (Linux.accepted lfs y = some c →
        (Linux.my_application_local_command_line lfs register_ok
          { dart_entrypoint_arguments := [], pending_shared_file_paths := [x] }
          [argv0, y]).1.pending_shared_file_paths = [c])) ∧
    ((Windows.CaptureInitialSharedFiles wfs
        { startup_arguments_ := startup_arguments,
          pending_shared_file_paths_ := prior }).pending_shared_file_paths_ =
      (Windows.CaptureInitialSharedFiles wfs
        { startup_arguments_ := startup_arguments,
          pending_shared_file_paths_ := prior2 }).pending_shared_file_paths_ ∧
      (∀ p ∈ (Windows.CaptureInitialSharedFiles wfs
          { startup_arguments_ := startup_arguments,
            pending_shared_file_paths_ := prior }).pending_shared_file_paths_,
        ∃ a ∈ startup_arguments, Windows.accepted wfs a = some p) ∧
      (Windows.accepted wfs y = some c →
        (Windows.CaptureInitialSharedFiles wfs
          { startup_arguments_ := [y],
            pending_shared_file_paths_ := [x] }).pending_shared_file_paths_ = [c])) := by
  simp only [Linux.pending_after_command_line, Windows.pending_after_capture]
  refine ⟨⟨trivial, ?_, ?_⟩, ⟨trivial, ?_, ?_⟩⟩
  · intro p hp
    simpa using (mem_accumulate (Linux.accepted lfs) (arguments.drop 1) [] p).mp hp
  · intro hy
    simp [accumulate, accumulateStep, hy]
  · intro p hp
    simpa using (mem_accumulate (Windows.accepted wfs) startup_arguments [] p).mp hp
  · intro hy
    simp [accumulate, accumulateStep, hy]

/-- C5 at a concrete input: with one entry pending, capturing `a.txt` leaves
exactly its normal form, on both platforms. -/
theorem C5_last_launch_wins_witness :
    (Linux.accepted Linux.symlinkFs "a.txt" = some "/home/user/a.txt" ∧
      (Linux.my_application_local_command_line Linux.symlinkFs true
        { dart_entrypoint_arguments := [],
          pending_shared_file_paths := ["/home/user/link.txt"] }
        ["dropnet", "a.txt"]).1.pending_shared_file_paths = ["/home/user/a.txt"]) ∧
    (Windows.accepted Windows.dotFs "a.txt" = some "C:\\work\\a.txt" ∧
      (Windows.CaptureInitialSharedFiles Windows.dotFs
        { startup_arguments_ := ["a.txt"],
          pending_shared_file_paths_ := ["C:\\work\\b.txt"] }).pending_shared_file_paths_ =
        ["C:\\work\\a.txt"]) :=
  ⟨⟨by decide,
      (C5_last_launch_wins Linux.symlinkFs true true Linux.my_application_init
        Linux.my_application_init [] Windows.dotFs [] [] []
        "dropnet" "/home/user/link.txt" "a.txt" "/home/user/a.txt").1.2.2 (by decide)⟩,
    ⟨by decide,
      (C5_last_launch_wins Linux.symlinkFs true true Linux.my_application_init
        Linux.my_application_init [] Windows.dotFs [] [] []
        "dropnet" "C:\\work\\b.txt" "a.txt" "C:\\work\\a.txt").2.2.2 (by decide)⟩⟩

/-- C6. The bridge handler answers not-implemented exactly when the method
name differs from `consumePendingSharedFiles`: for any other name the response
is the not-implemented one (so neither success nor error), for the exact name
it is the success response (both platforms). -/
theorem C6_not_implemented_iff_other_name
    (app : Linux.MyApplication) (window : Windows.FlutterWindow) (method : String) :
    ((Linux.share_intent_method_call_handler app method).2 =
        Linux.FlMethodResponse.not_implemented ↔ method ≠ "consumePendingSharedFiles") ∧
    ((Windows.SetupShareChannel_handler window method).2 =
        Windows.MethodResult.NotImplemented ↔ method ≠ "consumePendingSharedFiles") ∧
    (method = "consumePendingSharedFiles" →
      (Linux.share_intent_method_call_handler app method).2 =
        Linux.FlMethodResponse.success app.pending_shared_file_paths ∧
      (Windows.SetupShareChannel_handler window method).2 =
        Windows.MethodResult.Success window.pending_shared_file_paths_) := by
  have hk : Linux.strcmp method Linux.kConsumePendingMethod = 0 ↔
      method = "consumePendingSharedFiles" := Linux.strcmp_eq_zero_iff _ _
  by_cases h : method = "consumePendingSharedFiles"
  · have h0 : Linux.strcmp method Linux.kConsumePendingMethod = 0 := hk.mpr h
    refine ⟨?_, ?_, ?_⟩
    · unfold Linux.share_intent_method_call_handler
      rw [if_pos h0]
      simp [h, Linux.consume_pending_shared_files]
    · unfold Windows.SetupShareChannel_handler
      rw [if_neg (not_not.mpr h)]
      simp [h]
    · intro _
      constructor
      · unfold Linux.share_intent_method_call_handler
        rw [if_pos h0]
        simp [Linux.consume_pending_shared_files, Linux.foldl_snoc_eq]
      · unfold Windows.SetupShareChannel_handler
        rw [if_neg (not_not.mpr h)]
        simp [Windows.foldl_emplace_back_eq]
  · have h0 : ¬ Linux.strcmp method Linux.kConsumePendingMethod = 0 := fun e => h (hk.mp e)
    refine ⟨?_, ?_, ?_⟩
    · simp [Linux.share_intent_method_call_handler, h0, h]
    · simp [Windows.SetupShareChannel_handler, h]
    · intro e
      exact absurd e h

/-- C6 at concrete inputs: `consume` gets not-implemented, the exact name gets
the buffer, on both platforms. -/
theorem C6_not_implemented_iff_other_name_witness :
    (Linux.share_intent_method_call_handler ⟨[], ["/a"]⟩ "consume").2 =
      Linux.FlMethodResponse.not_implemented ∧
    (Windows.SetupShareChannel_handler ⟨[], ["/a"]⟩ "consume").2 =
      Windows.MethodResult.NotImplemented ∧
    (Linux.share_intent_method_call_handler ⟨[], ["/a"]⟩ "consumePendingSharedFiles").2 =
      Linux.FlMethodResponse.success ["/a"] ∧
    (Windows.SetupShareChannel_handler ⟨[], ["/a"]⟩ "consumePendingSharedFiles").2 =
      Windows.MethodResult.Success ["/a"] :=
  ⟨((C6_not_implemented_iff_other_name ⟨[], ["/a"]⟩ ⟨[], ["/a"]⟩ "consume").1).mpr (by decide),
    ((C6_not_implemented_iff_other_name ⟨[], ["/a"]⟩ ⟨[], ["/a"]⟩ "consume").2.1).mpr
      (by decide),
    (C6_not_implemented_iff_other_name ⟨[], ["/a"]⟩ ⟨[], ["/a"]⟩
      "consumePendingSharedFiles").2.2 rfl⟩

/-- C7. On Windows a string is in the buffer after
`FlutterWindow::CaptureInitialSharedFiles` if and only if it is the UTF-8
absolute form of a startup argument for which `absolute` sets no error code
and `exists` and `is_regular_file` both report true without an error code. -/
theorem C7_windows_buffer_membership
    (fs : Windows.FileSystem) (window : Windows.FlutterWindow) (s : String) :
    s ∈ (Windows.CaptureInitialSharedFiles fs window).pending_shared_file_paths_ ↔
      ∃ a ∈ window.startup_arguments_,
        (fs.absolute (fs.to_path a)).ec = false ∧
        (fs.fs_exists (fs.absolute (fs.to_path a)).value).value = true ∧
        (fs.fs_exists (fs.absolute (fs.to_path a)).value).ec = false ∧
        (fs.is_regular_file (fs.absolute (fs.to_path a)).value).value = true ∧
        (fs.is_regular_file (fs.absolute (fs.to_path a)).value).ec = false ∧
        s = fs.u8string (fs.absolute (fs.to_path a)).value := by
  rw [Windows.pending_after_capture, mem_accumulate]
  simp only [List.not_mem_nil, false_or]
  constructor
  · rintro ⟨a, ha, hacc⟩
    refine ⟨a, ha, ?_⟩
    unfold Windows.accepted at hacc
    simp only at hacc
    split at hacc
    · rename_i hc
      obtain ⟨h1, h2, h3, h4, h5⟩ := hc
      exact ⟨h1, h2, h3, h4, h5, (Option.some.inj hacc).symm⟩
    · exact absurd hacc (by simp)
  · rintro ⟨a, ha, h1, h2, h3, h4, h5, hs⟩
    refine ⟨a, ha, ?_⟩
    unfold Windows.accepted
    simp [h1, h2, h3, h4, h5, hs]

/-- C9. Skip and continue: an argument `b` whose file-system probe fails is
dropped alone.  The buffer after capturing `xs ++ [b] ++ ys` equals the buffer
after capturing `xs ++ ys`, and on Linux the exit status and return value of
`my_application_local_command_line` are the same for both lists (they depend
only on `g_application_register`); the Windows capture returns nothing but the
new window state. -/
theorem C9_skip_and_continue
    (lfs : Linux.FileSystem) (register_ok : Bool) (app : Linux.MyApplication)
    (wfs : Windows.FileSystem) (prior : List String)
    (argv0 b : String) (xs ys : List String) :
    (Linux.probeFails lfs b →
      (Linux.my_application_local_command_line lfs register_ok app
        (argv0 :: (xs ++ [b] ++ ys))).1.pending_shared_file_paths =
      (Linux.my_application_local_command_line lfs register_ok app
        (argv0 :: (xs ++ ys))).1.pending_shared_file_paths ∧
      (Linux.my_application_local_command_line lfs register_ok app
        (argv0 :: (xs ++ [b] ++ ys))).2 =
      (Linux.my_application_local_command_line lfs register_ok app
        (argv0 :: (xs ++ ys))).2) ∧
    (Windows.probeFails wfs b →
      (Windows.CaptureInitialSharedFiles wfs
        { startup_arguments_ := xs ++ [b] ++ ys,
          pending_shared_file_paths_ := prior }).pending_shared_file_paths_ =
      (Windows.CaptureInitialSharedFiles wfs
        { startup_arguments_ := xs ++ ys,
          pending_shared_file_paths_ := prior }).pending_shared_file_paths_) := by
  constructor
  · intro hb
    constructor
    · rw [Linux.pending_after_command_line, Linux.pending_after_command_line]
      simp only [List.drop_succ_cons, List.drop_zero]
      exact accumulate_skip (Linux.accepted_eq_none_of_probeFails lfs b hb) [] xs ys
    · unfold Linux.my_application_local_command_line
      cases register_ok <;> simp
  · intro hb
    rw [Windows.pending_after_capture, Windows.pending_after_capture]
    exact accumulate_skip (Windows.accepted_eq_none_of_failed_probe wfs b hb) [] xs ys

/-- C9 at a concrete input: `missing.txt` does not exist, and capturing
`a.txt missing.txt b.txt` gives the same buffer as capturing `a.txt b.txt`,
on both platforms. -/
theorem C9_skip_and_continue_witness :
    (Linux.probeFails Linux.dotFs "missing.txt" ∧
      (Linux.my_application_local_command_line Linux.dotFs true Linux.my_application_init
        ("dropnet" :: (["a.txt"] ++ ["missing.txt"] ++ ["b.txt"]))).1.pending_shared_file_paths =
      (Linux.my_application_local_command_line Linux.dotFs true Linux.my_application_init
        ("dropnet" :: (["a.txt"] ++ ["b.txt"]))).1.pending_shared_file_paths) ∧
    (Windows.probeFails Windows.dotFs "missing.txt" ∧
      (Windows.CaptureInitialSharedFiles Windows.dotFs
        { startup_arguments_ := ["a.txt"] ++ ["missing.txt"] ++ ["b.txt"],
          pending_shared_file_paths_ := [] }).pending_shared_file_paths_ =
      (Windows.CaptureInitialSharedFiles Windows.dotFs
        { startup_arguments_ := ["a.txt"] ++ ["b.txt"],
          pending_shared_file_paths_ := [] }).pending_shared_file_paths_) :=
  have hl : Linux.probeFails Linux.dotFs "missing.txt" := Or.inl (by decide)
  have hw : Windows.probeFails Windows.dotFs "missing.txt" := Or.inr (Or.inl (by decide))
  ⟨⟨hl, ((C9_skip_and_continue Linux.dotFs true Linux.my_application_init Windows.dotFs []
      "dropnet" "missing.txt" ["a.txt"] ["b.txt"]).1 hl).1⟩,
    ⟨hw, (C9_skip_and_continue Linux.dotFs true Linux.my_application_init Windows.dotFs []
      "dropnet" "missing.txt" ["a.txt"] ["b.txt"]).2 hw⟩⟩

/-- C10. For every method name other than `consumePendingSharedFiles` the
bridge handler leaves the pending-paths buffer (indeed the whole state) exactly
as it was, on both platforms. -/
theorem C10_other_method_keeps_buffer
    (app : Linux.MyApplication) (window : Windows.FlutterWindow) (method : String)
    (h : method ≠ "consumePendingSharedFiles") :
    (Linux.share_intent_method_call_handler app method).1.pending_shared_file_paths =
      app.pending_shared_file_paths ∧
    (Linux.share_intent_method_call_handler app method).1 = app ∧
    (Windows.SetupShareChannel_handler window method).1.pending_shared_file_paths_ =
      window.pending_shared_file_paths_ ∧
    (Windows.SetupShareChannel_handler window method).1 = window := by
  have h0 : ¬ Linux.strcmp method Linux.kConsumePendingMethod = 0 :=
    fun e => h ((Linux.strcmp_eq_zero_iff _ _).mp e)
  refine ⟨?_, ?_, ?_, ?_⟩
  · simp [Linux.share_intent_method_call_handler, h0]
  · simp [Linux.share_intent_method_call_handler, h0]
  · simp [Windows.SetupShareChannel_handler, h]
  · simp [Windows.SetupShareChannel_handler, h]

/-- C10 at a concrete input: the method `consumePendingSharedFile` (final `s`
missing) leaves a two-entry buffer untouched. -/
theorem C10_other_method_keeps_buffer_witness :
    "consumePendingSharedFile" ≠ "consumePendingSharedFiles" ∧
    (Linux.share_intent_method_call_handler ⟨[], ["/a", "/b"]⟩
      "consumePendingSharedFile").1.pending_shared_file_paths = ["/a", "/b"] ∧
    (Windows.SetupShareChannel_handler ⟨[], ["/a", "/b"]⟩
      "consumePendingSharedFile").1.pending_shared_file_paths_ = ["/a", "/b"] :=
  ⟨by decide,
    (C10_other_method_keeps_buffer ⟨[], ["/a", "/b"]⟩ ⟨[], ["/a", "/b"]⟩
      "consumePendingSharedFile" (by decide)).1,
    (C10_other_method_keeps_buffer ⟨[], ["/a", "/b"]⟩ ⟨[], ["/a", "/b"]⟩
      "consumePendingSharedFile" (by decide)).2.2.1⟩

end Dropnet
